import Mathlib

/-!
Shallow embedding of the Intercooperative Network core: the transaction
validator (`crates/icn_blockchain/src/transaction_validator.rs`), the
proof-of-cooperation consensus engine (`crates/icn_common/src/lib.rs`, whose
header names it `crates/icn_consensus/src/lib.rs`), and the governance module
(`crates/icn_governance/src/lib.rs`).

Modelling conventions:
- Rust `f64` values (amounts, fees, reputations, thresholds, vote weights)
  are embedded as `ℚ`.  Every numeric comparison settled below is far from a
  representation tie, and the single division-by-zero site
  (`votes_for / total_votes` with `total_votes = 0`) takes the same branch in
  both semantics: in `f64` the quotient is NaN and `NaN >= threshold` is
  false; in `ℚ` the quotient is `0` and `threshold ≤ 0` is false whenever the
  engine was constructed with a positive threshold.
- `HashMap` iteration is order-unspecified in Rust; maps are embedded as
  association lists whose list order stands for the iteration order, so
  order-dependent behaviour is quantified over explicitly.
- `&mut self` methods are embedded by state passing: each operation returns
  its `Result` together with the post-state, so mutations that happen before
  an early `return Err` are preserved, exactly as in the source.
- `DateTime<Utc>` timestamps and the wall clock are embedded as `ℤ` seconds;
  the clock read (`Utc::now()`) becomes an explicit `now` argument.
- Lock poisoning on the `RwLock` around the chain is not modelled; every
  lock acquisition is assumed to succeed.
-/

/-- Error kinds of `icn_common::error::IcnError` (the enum itself is outside
`src/`; the spec fixes the five kinds `Blockchain`, `Currency`, `Identity`,
`Consensus`, `Governance`, each with a string payload). -/
inductive IcnError where
  | Blockchain : String → IcnError
  | Currency : String → IcnError
  | Identity : String → IcnError
  | Consensus : String → IcnError
  | Governance : String → IcnError
  deriving DecidableEq

/-- Results are compared in closed evaluations, so equip `Except` with
decidable equality. -/
instance exceptDecEq {ε α : Type} [DecidableEq ε] [DecidableEq α] :
    DecidableEq (Except ε α) := fun a b =>
  match a, b with
  | .ok x, .ok y =>
    if h : x = y then .isTrue (by rw [h]) else .isFalse (by simp [h])
  | .error x, .error y =>
    if h : x = y then .isTrue (by rw [h]) else .isFalse (by simp [h])
  | .ok _, .error _ => .isFalse (by simp)
  | .error _, .ok _ => .isFalse (by simp)

/-- The payload string of an error, used where the source formats an error
into a message. -/
def IcnError.msg : IcnError → String
  | .Blockchain s => s
  | .Currency s => s
  | .Identity s => s
  | .Consensus s => s
  | .Governance s => s

/-- Modelled from the spec: `Transaction` lives in `icn_common`, absent from
`src/`; §3 fixes the record `{from, to, amount, currency, fee, timestamp,
signature}` with structural equality over all fields (`from` and `to` are
renamed `from_` and `to_` because both are Lean keywords). -/
structure Transaction where
  from_ : String
  to_ : String
  amount : ℚ
  currency_type : String
  fee : ℚ
  timestamp : ℤ
  signature : Option String
  deriving DecidableEq

/-- Modelled from the spec: `Transaction::get_fee` is defined in
`icn_common`, absent from `src/`; the spec treats the fee as a field of the
transaction. -/
def Transaction.get_fee (t : Transaction) : ℚ := t.fee

/-- Modelled from the spec: `Block` lives in `icn_common`, absent from
`src/`; §3 fixes `{index, timestamp, transactions (ordered), previous_hash,
hash}`. -/
structure Block where
  index : ℕ
  timestamp : ℤ
  transactions : List Transaction
  previous_hash : String
  hash : String
  deriving DecidableEq

/-- Deterministic string encoding of one transaction, used by the block
digest. -/
def encodeTx (t : Transaction) : String :=
  t.from_ ++ ">" ++ t.to_ ++ ":" ++ toString t.amount.num ++ "/" ++
    toString t.amount.den ++ ":" ++ t.currency_type ++ ":" ++
    toString t.fee.num ++ "/" ++ toString t.fee.den ++ ":" ++
    toString t.timestamp

/-- Modelled from the spec: `Block::calculate_hash` lives in `icn_common`,
absent from `src/`; the spec requires only "a deterministic digest of the
block's contents", which we model as a deterministic string encoding of the
fields other than the stored `hash`. -/
def Block.calculate_hash (b : Block) : String :=
  "digest(" ++ toString b.index ++ "|" ++ toString b.timestamp ++ "|" ++
    String.join (b.transactions.map encodeTx) ++ "|" ++ b.previous_hash ++ ")"

/-- Modelled from the spec: the `Blockchain` context consumed by the
transaction validator (`icn_common`, absent from `src/`); the validator uses
its committed chain. -/
structure Blockchain where
  chain : List Block

/-- Credit/debit contribution of one committed transaction to one
`(account, currency)` balance. -/
def txDelta (account currency : String) (t : Transaction) : ℚ :=
  (if t.to_ = account ∧ t.currency_type = currency then t.amount else 0) -
    (if t.from_ = account ∧ t.currency_type = currency then t.amount + t.fee else 0)

/-- Modelled from the spec: `Blockchain::get_balance` lives in `icn_common`,
absent from `src/`; §3 derives the balance as "a folded sum of credits minus
debits and fees across all committed transactions". -/
def Blockchain.get_balance (bc : Blockchain) (account currency : String) : ℚ :=
  (bc.chain.map (fun b => (b.transactions.map (txDelta account currency)).sum)).sum

namespace TransactionValidator

/-- Source `TransactionValidator::is_double_spend`: scans every committed block for
a structurally equal transaction. -/
def is_double_spend (t : Transaction) (bc : Blockchain) : Except IcnError Bool :=
  .ok (bc.chain.any (fun b => b.transactions.any (fun tx => decide (tx = t))))

/-- Source `TransactionValidator::validate_currency_and_amount`: `amount > 0.0`. -/
def validate_currency_and_amount (t : Transaction) : Bool :=
  decide (0 < t.amount)

/-- Source `TransactionValidator::check_sufficient_balance`:
`balance ≥ amount + fee`. -/
def check_sufficient_balance (t : Transaction) (bc : Blockchain) : Except IcnError Bool :=
  .ok (decide (t.amount + t.get_fee ≤ bc.get_balance t.from_ t.currency_type))

/-- Source `TransactionValidator::validate_signature`: defers to the external
`Transaction::verify` (outside `src/`; the spec's external signature
primitive), mapping its error into an `Identity` error. -/
def validate_signature (verify : Transaction → Except IcnError Bool)
    (t : Transaction) : Except IcnError Bool :=
  match verify t with
  | .ok b => .ok b
  | .error e => .error (IcnError.Identity ("Signature verification failed: " ++ e.msg))

/-- Source `TransactionValidator::validate_timestamp`:
`timestamp ≤ now ∧ timestamp ≥ now - 60*60`, with the wall clock passed
explicitly. -/
def validate_timestamp (now : ℤ) (t : Transaction) : Bool :=
  decide (t.timestamp ≤ now ∧ now - 60 * 60 ≤ t.timestamp)

/-- Source `TransactionValidator::validate_transaction`: the five checks in source
order, first failure short-circuiting. -/
def validate_transaction (verify : Transaction → Except IcnError Bool)
    (now : ℤ) (t : Transaction) (bc : Blockchain) : Except IcnError Unit :=
  match is_double_spend t bc with
  | .error e => .error e
  | .ok true => .error (IcnError.Blockchain "Double spend detected")
  | .ok false =>
    if validate_currency_and_amount t = false then
      .error (IcnError.Currency "Invalid currency or amount")
    else
      match check_sufficient_balance t bc with
      | .error e => .error e
      | .ok false => .error (IcnError.Currency "Insufficient balance")
      | .ok true =>
        match validate_signature verify t with
        | .error e => .error e
        | .ok false => .error (IcnError.Identity "Invalid signature")
        | .ok true =>
          if validate_timestamp now t = false then
            .error (IcnError.Blockchain "Transaction timestamp is not valid")
          else
            .ok ()

end TransactionValidator

/-- A registered validator of the consensus engine (`struct Validator`). -/
structure Validator where
  reputation : ℚ
  deriving DecidableEq

/-- Source `struct PoCConsensus`: threshold/quorum configuration, the validator
registry (association list standing for the `HashMap` with its iteration
order), the pending candidate blocks, and the committed chain (the
`Arc<RwLock<Vec<Block>>>` with lock poisoning not modelled). -/
structure PoCConsensus where
  threshold : ℚ
  quorum : ℚ
  validators : List (String × Validator)
  pending_blocks : List Block
  blockchain : List Block
  deriving DecidableEq

namespace PoCConsensus

/-- Source `PoCConsensus::new`: range-checks threshold and quorum. -/
def new (threshold quorum : ℚ) : Except IcnError PoCConsensus :=
  if threshold ≤ 0 ∨ 1 < threshold ∨ quorum ≤ 0 ∨ 1 < quorum then
    .error (IcnError.Consensus "Invalid threshold or quorum value")
  else
    .ok { threshold := threshold, quorum := quorum, validators := [],
          pending_blocks := [], blockchain := [] }

/-- Source `PoCConsensus::add_validator`. -/
def add_validator (e : PoCConsensus) (id : String) (initial_reputation : ℚ) :
    Except IcnError Unit × PoCConsensus :=
  if initial_reputation < 0 ∨ 1 < initial_reputation then
    (.error (IcnError.Consensus "Invalid initial reputation"), e)
  else
    (.ok (), { e with validators :=
      (e.validators.filter (fun p => p.1 ≠ id)) ++ [(id, { reputation := initial_reputation })] })

/-- Source `PoCConsensus::remove_validator`: idempotent removal. -/
def remove_validator (e : PoCConsensus) (id : String) :
    Except IcnError Unit × PoCConsensus :=
  (.ok (), { e with validators := e.validators.filter (fun p => p.1 ≠ id) })

/-- Source `PoCConsensus::validate_transaction` (the engine's inner transaction
predicate): `amount > 0`. -/
def validate_transaction (t : Transaction) : Except IcnError Bool :=
  if t.amount ≤ 0 then .ok false else .ok true

/-- The `for transaction in &block.transactions` loop of
`PoCConsensus::validate_block`: first failing transaction yields `false`. -/
def validateTxList : List Transaction → Except IcnError Bool
  | [] => .ok true
  | t :: ts =>
    match validate_transaction t with
    | .error e => .error e
    | .ok false => .ok false
    | .ok true => validateTxList ts

/-- Source `PoCConsensus::validate_block` against a given committed chain: genesis
is exempt; otherwise the parent link, the recomputed digest, and every
transaction are checked. -/
def validate_block (chain : List Block) (block : Block) : Except IcnError Bool :=
  if block.index = 0 then .ok true
  else
    match chain.getLast? with
    | none => .error (IcnError.Consensus "No previous block found")
    | some previous_block =>
      if block.previous_hash ≠ previous_block.hash then .ok false
      else if block.hash ≠ block.calculate_hash then .ok false
      else validateTxList block.transactions

/-- The inner `for validator in self.validators.values()` loop of
`PoCConsensus::try_reach_consensus` for one candidate block: re-validates
the block against the current chain at every iteration, accumulates
`votes_for`/`total_votes`, and decides at every iteration where the quorum
mass is reached — appending on success and continuing, erroring on failure.
Returns the loop's result together with the chain as mutated so far. -/
def pollValidators (threshold quorum_reputation : ℚ) (block : Block) :
    List (String × Validator) → List Block → ℚ → ℚ →
    Except IcnError Unit × List Block
  | [], chain, _votes_for, _total_votes => (.ok (), chain)
  | (_, v) :: rest, chain, votes_for, total_votes =>
    match validate_block chain block with
    | .error e => (.error e, chain)
    | .ok accepts =>
      let votes_for' := if accepts then votes_for + v.reputation else votes_for
      let total_votes' := total_votes + v.reputation
      if quorum_reputation ≤ total_votes' then
        if threshold ≤ votes_for' / total_votes' then
          pollValidators threshold quorum_reputation block rest
            (chain ++ [block]) votes_for' total_votes'
        else
          (.error (IcnError.Consensus "Block rejected by consensus"), chain)
      else
        pollValidators threshold quorum_reputation block rest
          chain votes_for' total_votes'

/-- The outer `for block in &self.pending_blocks` loop of
`PoCConsensus::try_reach_consensus`: processes each pending block in turn,
threading the chain and accumulating `blocks_to_retain`; a rejection aborts
the loop, keeping the chain mutations made so far. -/
def blocksLoop (threshold quorum_reputation : ℚ)
    (validators : List (String × Validator)) :
    List Block → List Block → List Block →
    Except IcnError Unit × (List Block × List Block)
  | [], chain, blocks_to_retain => (.ok (), (chain, blocks_to_retain))
  | block :: rest, chain, blocks_to_retain =>
    match pollValidators threshold quorum_reputation block validators chain 0 0 with
    | (.error e, chain') => (.error e, (chain', blocks_to_retain))
    | (.ok _, chain') =>
      blocksLoop threshold quorum_reputation validators rest chain'
        (blocks_to_retain ++ [block])

/-- Source `PoCConsensus::try_reach_consensus`: computes the total reputation and
the quorum mass, runs the pending-block loop, and on normal completion
retains exactly the pending blocks listed in `blocks_to_retain`. -/
def try_reach_consensus (e : PoCConsensus) : Except IcnError Unit × PoCConsensus :=
  let total_reputation : ℚ := (e.validators.map (fun p => p.2.reputation)).sum
  let quorum_reputation := total_reputation * e.quorum
  match blocksLoop e.threshold quorum_reputation e.validators
      e.pending_blocks e.blockchain [] with
  | (.error err, (chain', _)) => (.error err, { e with blockchain := chain' })
  | (.ok _, (chain', blocks_to_retain)) =>
    (.ok (), { e with
      blockchain := chain',
      pending_blocks :=
        e.pending_blocks.filter (fun b => blocks_to_retain.contains b) })

/-- Source `PoCConsensus::process_new_block` (the spec's `submit_block`): enqueues
the candidate, then runs the consensus round. -/
def process_new_block (e : PoCConsensus) (block : Block) :
    Except IcnError Unit × PoCConsensus :=
  try_reach_consensus { e with pending_blocks := e.pending_blocks ++ [block] }

/-- Source `PoCConsensus::get_blockchain` (the spec's `chain()`). -/
def get_blockchain (e : PoCConsensus) : Except IcnError (List Block) :=
  .ok e.blockchain

/-- Source `PoCConsensus::update_validator_reputation`. -/
def update_validator_reputation (e : PoCConsensus) (id : String)
    (new_reputation : ℚ) : Except IcnError Unit × PoCConsensus :=
  if new_reputation < 0 ∨ 1 < new_reputation then
    (.error (IcnError.Consensus "Invalid reputation value"), e)
  else if (e.validators.filter (fun p => p.1 = id)).isEmpty then
    (.error (IcnError.Consensus "Validator not found"), e)
  else
    (.ok (), { e with validators := (e.validators.map
      (fun p => if p.1 = id then (p.1, { reputation := new_reputation }) else p)) })

end PoCConsensus

/-- Association-list lookup, standing for `HashMap::get`: first entry whose
key matches. -/
def mapGet {α : Type} : List (String × α) → String → Option α
  | [], _ => none
  | (k, v) :: rest, key => if k = key then some v else mapGet rest key

/-- Association-list in-place update, standing for mutation through
`HashMap::get_mut`: every entry with the key is replaced, others kept. -/
def mapSet {α : Type} (m : List (String × α)) (key : String) (v : α) :
    List (String × α) :=
  m.map (fun e => if e.1 = key then (key, v) else e)

/-- Source `ProposalStatus`. -/
inductive ProposalStatus where
  | Active
  | Passed
  | Rejected
  | Executed
  deriving DecidableEq

/-- Source `ProposalType`. -/
inductive ProposalType where
  | Constitutional
  | EconomicAdjustment
  | NetworkUpgrade
  deriving DecidableEq

/-- Source `ProposalCategory`. -/
inductive ProposalCategory where
  | Constitutional
  | Economic
  | Technical
  deriving DecidableEq

/-- Source `struct Proposal`, timestamps as `ℤ` seconds. -/
structure Proposal where
  id : String
  title : String
  description : String
  proposer : String
  created_at : ℤ
  voting_ends_at : ℤ
  status : ProposalStatus
  proposal_type : ProposalType
  category : ProposalCategory
  required_quorum : ℚ
  execution_timestamp : Option ℤ
  deriving DecidableEq

/-- Source `struct Vote`. -/
structure Vote where
  voter : String
  proposal_id : String
  in_favor : Bool
  weight : ℚ
  timestamp : ℤ
  deriving DecidableEq

/-- Source `struct GovernanceSystem`: the proposal store and the per-proposal vote
lists, as association lists. -/
structure GovernanceSystem where
  proposals : List (String × Proposal)
  votes : List (String × List Vote)
  deriving DecidableEq

namespace GovernanceSystem

/-- Source `GovernanceSystem::new`. -/
def new : GovernanceSystem := { proposals := [], votes := [] }

/-- Source `GovernanceSystem::create_proposal`: duplicate ids are refused;
otherwise the proposal is stored with an empty vote list. -/
def create_proposal (gs : GovernanceSystem) (proposal : Proposal) :
    Except IcnError String × GovernanceSystem :=
  if (mapGet gs.proposals proposal.id).isSome then
    (.error (IcnError.Governance "Proposal ID already exists"), gs)
  else
    (.ok proposal.id, { gs with
      proposals := gs.proposals ++ [(proposal.id, proposal)],
      votes := gs.votes ++ [(proposal.id, [])] })

/-- Source `GovernanceSystem::get_proposal`. -/
def get_proposal (gs : GovernanceSystem) (proposal_id : String) : Option Proposal :=
  mapGet gs.proposals proposal_id

/-- Source `GovernanceSystem::vote_on_proposal`: checks in source order (proposal
present, Active, window open, vote list present, voter fresh), then appends
one vote stamped with the current time. -/
def vote_on_proposal (gs : GovernanceSystem) (proposal_id voter : String)
    (in_favor : Bool) (weight : ℚ) (now : ℤ) :
    Except IcnError Unit × GovernanceSystem :=
  match mapGet gs.proposals proposal_id with
  | none => (.error (IcnError.Governance "Proposal not found"), gs)
  | some proposal =>
    if proposal.status ≠ ProposalStatus.Active then
      (.error (IcnError.Governance "Proposal is not active"), gs)
    else if proposal.voting_ends_at < now then
      (.error (IcnError.Governance "Voting period has ended"), gs)
    else
      match mapGet gs.votes proposal_id with
      | none => (.error (IcnError.Governance "Votes not found for proposal"), gs)
      | some votes =>
        if votes.any (fun v => v.voter == voter) then
          (.error (IcnError.Governance "Voter has already voted on this proposal"), gs)
        else
          (.ok (), { gs with votes := (mapSet gs.votes proposal_id
            (votes ++ [{ voter := voter, proposal_id := proposal_id,
                         in_favor := in_favor, weight := weight, timestamp := now }])) })

/-- Source `GovernanceSystem::finalize_proposal`: on an Active proposal whose
window has closed, compares the total vote weight to the absolute
`required_quorum`, then the in-favor share to one half, and stores the
resulting status. -/
def finalize_proposal (gs : GovernanceSystem) (proposal_id : String) (now : ℤ) :
    Except IcnError ProposalStatus × GovernanceSystem :=
  match mapGet gs.proposals proposal_id with
  | none => (.error (IcnError.Governance "Proposal not found"), gs)
  | some proposal =>
    if proposal.status ≠ ProposalStatus.Active then
      (.error (IcnError.Governance "Proposal is not active"), gs)
    else if now < proposal.voting_ends_at then
      (.error (IcnError.Governance "Voting period has not ended yet"), gs)
    else
      match mapGet gs.votes proposal_id with
      | none => (.error (IcnError.Governance "Votes not found for proposal"), gs)
      | some votes =>
        let total_votes : ℚ := (votes.map Vote.weight).sum
        let votes_in_favor : ℚ :=
          ((votes.filter (fun v => v.in_favor)).map Vote.weight).sum
        let st : ProposalStatus :=
          if total_votes < proposal.required_quorum then ProposalStatus.Rejected
          else if (1 : ℚ) / 2 < votes_in_favor / total_votes then ProposalStatus.Passed
          else ProposalStatus.Rejected
        (.ok st, { gs with proposals :=
          (mapSet gs.proposals proposal_id { proposal with status := st }) })

/-- Source `GovernanceSystem::list_active_proposals`. -/
def list_active_proposals (gs : GovernanceSystem) : List Proposal :=
  (gs.proposals.filter (fun p => p.2.status == ProposalStatus.Active)).map (fun p => p.2)

/-- Source `GovernanceSystem::mark_as_executed`: Passed → Executed, every other
source status an error without mutation. -/
def mark_as_executed (gs : GovernanceSystem) (proposal_id : String) :
    Except IcnError Unit × GovernanceSystem :=
  match mapGet gs.proposals proposal_id with
  | none => (.error (IcnError.Governance "Proposal not found"), gs)
  | some proposal =>
    if proposal.status ≠ ProposalStatus.Passed then
      (.error (IcnError.Governance "Proposal has not passed"), gs)
    else
      (.ok (), { gs with proposals :=
        (mapSet gs.proposals proposal_id { proposal with status := ProposalStatus.Executed }) })

/-- Store well-formedness maintained by every operation: each stored
proposal id owns a vote list (`create_proposal` installs both together). -/
def wellFormed (gs : GovernanceSystem) : Bool :=
  gs.proposals.all (fun pr => (mapGet gs.votes pr.1).isSome)

end GovernanceSystem

/-- The status transitions the spec's proposal lifecycle admits: stay put,
Active → Passed, Active → Rejected, or Passed → Executed. -/
def statusStepOK (s s' : ProposalStatus) : Prop :=
  s' = s ∨
    (s = ProposalStatus.Active ∧ s' = ProposalStatus.Passed) ∨
    (s = ProposalStatus.Active ∧ s' = ProposalStatus.Rejected) ∨
    (s = ProposalStatus.Passed ∧ s' = ProposalStatus.Executed)

/-! ### Concrete instances used by counterexamples and witnesses -/

/-- A genesis block whose stored hash is the sentinel `"h0"`. -/
def genesisBlock : Block :=
  { index := 0, timestamp := 0, transactions := [], previous_hash := "0", hash := "h0" }

/-- A well-formed successor of `genesisBlock`: linked to its hash and
carrying its own recomputed digest. -/
def linkedBlock : Block :=
  { index := 1, timestamp := 0, transactions := [], previous_hash := "h0",
    hash := Block.calculate_hash
      { index := 1, timestamp := 0, transactions := [], previous_hash := "h0", hash := "" } }

/-- The spec's scenario-5 engine with the higher-reputation validator polled
first: threshold 0.66, quorum 0.51, reputations 0.8 and 0.7, genesis
committed. -/
def scenario5Engine : PoCConsensus :=
  { threshold := 66/100, quorum := 51/100,
    validators := [("validator1", { reputation := 4/5 }), ("validator2", { reputation := 7/10 })],
    pending_blocks := [], blockchain := [genesisBlock] }

/-- A candidate block that no validator accepts: its parent link does not
match the committed tip. -/
def unlinkedBlock : Block :=
  { index := 1, timestamp := 0, transactions := [], previous_hash := "bad",
    hash := "whatever" }

/-- A single-validator engine (full reputation) over the genesis chain. -/
def rejectingEngine : PoCConsensus :=
  { threshold := 66/100, quorum := 51/100,
    validators := [("validator1", { reputation := 1 })],
    pending_blocks := [], blockchain := [genesisBlock] }

/-- An engine whose only validator has reputation `0`. -/
def zeroRepEngine : PoCConsensus :=
  { threshold := 66/100, quorum := 51/100,
    validators := [("validator1", { reputation := 0 })],
    pending_blocks := [], blockchain := [] }

/-- An engine with no validators at all. -/
def noValidatorEngine : PoCConsensus :=
  { threshold := 66/100, quorum := 51/100, validators := [],
    pending_blocks := [], blockchain := [genesisBlock] }

/-- A candidate genesis block (always accepted by `validate_block`). -/
def genesisCandidate : Block :=
  { index := 0, timestamp := 7, transactions := [], previous_hash := "0", hash := "g" }

/-- A signature oracle that accepts everything, for witnesses. -/
def acceptAllVerify : Transaction → Except IcnError Bool := fun _ => .ok true

/-- A funding transaction: `Genesis` pays `Alice` 100 `Basic`. -/
def fundingTx : Transaction :=
  { from_ := "Genesis", to_ := "Alice", amount := 100, currency_type := "Basic",
    fee := 0, timestamp := 0, signature := none }

/-- A committed block holding `fundingTx`. -/
def fundedChain : Blockchain :=
  { chain := [{ index := 0, timestamp := 0, transactions := [fundingTx],
                previous_hash := "0", hash := "h0" }] }

/-- Transaction: `Alice` pays `Bob` 50 `Basic` at time 1000. -/
def spendTx : Transaction :=
  { from_ := "Alice", to_ := "Bob", amount := 50, currency_type := "Basic",
    fee := 0, timestamp := 1000, signature := none }

/-- An Active proposal `"prop1"` with quorum 3 and voting window ending at
time 100. -/
def sampleProposal : Proposal :=
  { id := "prop1", title := "T", description := "D", proposer := "Alice",
    created_at := 0, voting_ends_at := 100, status := ProposalStatus.Active,
    proposal_type := ProposalType.Constitutional,
    category := ProposalCategory.Technical, required_quorum := 3,
    execution_timestamp := none }

/-- Three recorded votes on `"prop1"`: yes 1, yes 1, no 1. -/
def sampleVotes : List Vote :=
  [{ voter := "Alice", proposal_id := "prop1", in_favor := true, weight := 1, timestamp := 1 },
   { voter := "Bob", proposal_id := "prop1", in_favor := true, weight := 1, timestamp := 2 },
   { voter := "Carol", proposal_id := "prop1", in_favor := false, weight := 1, timestamp := 3 }]

/-- A governance store holding `sampleProposal` and `sampleVotes`. -/
def sampleGov : GovernanceSystem :=
  { proposals := [("prop1", sampleProposal)],
    votes := [("prop1", sampleVotes)] }

/-- A governance store with one Passed proposal (`"prop2"`). -/
def passedGov : GovernanceSystem :=
  { proposals := [("prop2",
      { id := "prop2", title := "T", description := "D", proposer := "Alice",
        created_at := 0, voting_ends_at := 100, status := ProposalStatus.Passed,
        proposal_type := ProposalType.NetworkUpgrade,
        category := ProposalCategory.Economic, required_quorum := 1,
        execution_timestamp := none })],
    votes := [("prop2", [])] }

/-! ### Helper lemmas -/

/-- Updating a present key makes lookup return the new value. -/
lemma mapGet_mapSet_self {α : Type} (m : List (String × α)) (k : String) (v w : α)
    (h : mapGet m k = some w) : mapGet (mapSet m k v) k = some v := by
  induction m with
  | nil => simp [mapGet] at h
  | cons e rest ih =>
    obtain ⟨k₀, u⟩ := e
    by_cases hk : k₀ = k
    · subst hk
      have hset : mapSet ((k₀, u) :: rest) k₀ v = (k₀, v) :: mapSet rest k₀ v := by
        simp [mapSet]
      rw [hset]
      simp [mapGet]
    · have hset : mapSet ((k₀, u) :: rest) k v = (k₀, u) :: mapSet rest k v := by
        simp [mapSet, hk]
      rw [hset]
      simp only [mapGet, if_neg hk] at h ⊢
      exact ih h

/-- Updating one key leaves lookups at other keys unchanged. -/
lemma mapGet_mapSet_ne {α : Type} (m : List (String × α)) (k k' : String) (v : α)
    (h : k' ≠ k) : mapGet (mapSet m k v) k' = mapGet m k' := by
  induction m with
  | nil => rfl
  | cons e rest ih =>
    obtain ⟨k₀, u⟩ := e
    by_cases hk : k₀ = k
    · subst hk
      have hset : mapSet ((k₀, u) :: rest) k₀ v = (k₀, v) :: mapSet rest k₀ v := by
        simp [mapSet]
      rw [hset]
      simp only [mapGet]
      rw [if_neg (fun hh => h hh.symm), if_neg (fun hh => h hh.symm)]
      exact ih
    · have hset : mapSet ((k₀, u) :: rest) k v = (k₀, u) :: mapSet rest k v := by
        simp [mapSet, hk]
      rw [hset]
      simp only [mapGet]
      by_cases hk' : k₀ = k'
      · rw [if_pos hk', if_pos hk']
      · rw [if_neg hk', if_neg hk']
        exact ih

/-- A successful lookup exhibits a stored entry. -/
lemma mapGet_mem {α : Type} (m : List (String × α)) (k : String) (v : α)
    (h : mapGet m k = some v) : (k, v) ∈ m := by
  induction m with
  | nil => simp [mapGet] at h
  | cons e rest ih =>
    obtain ⟨k₀, u⟩ := e
    by_cases hk : k₀ = k
    · subst hk
      simp only [mapGet, if_pos] at h
      cases h
      exact List.mem_cons_self _ _
    · simp only [mapGet, hk, if_neg, not_false_iff] at h
      exact List.mem_cons_of_mem _ (ih h)

/-- Appending entries does not disturb a lookup that already succeeds. -/
lemma mapGet_append_some {α : Type} (m l : List (String × α)) (k : String) (v : α)
    (h : mapGet m k = some v) : mapGet (m ++ l) k = some v := by
  induction m with
  | nil => simp [mapGet] at h
  | cons e rest ih =>
    obtain ⟨k₀, u⟩ := e
    by_cases hk : k₀ = k
    · simp only [mapGet, if_pos hk] at h ⊢
      exact h
    · simp only [mapGet, hk, if_neg, not_false_iff, List.cons_append] at h ⊢
      exact ih h

namespace PoCConsensus

/-- With no validators the inner loop never runs, so every pending block is
processed successfully and the chain is untouched. -/
lemma blocksLoop_no_validators (t qr : ℚ) :
    ∀ (bs chain r : List Block),
      blocksLoop t qr [] bs chain r = (.ok (), (chain, r ++ bs)) := by
  intro bs
  induction bs with
  | nil => intro chain r; simp [blocksLoop]
  | cons b rest ih =>
    intro chain r
    simp only [blocksLoop, pollValidators]
    rw [ih]
    simp

/-- On the non-error path the outer loop pushes every processed block onto
`blocks_to_retain`. -/
lemma blocksLoop_ok_retain (t qr : ℚ) (vals : List (String × Validator)) :
    ∀ (bs chain r : List Block) {c' r' : List Block},
      blocksLoop t qr vals bs chain r = (.ok (), (c', r')) → r' = r ++ bs := by
  intro bs
  induction bs with
  | nil =>
    intro chain r c' r' h
    simp only [blocksLoop, Prod.mk.injEq] at h
    simp [← h.2.2]
  | cons b rest ih =>
    intro chain r c' r' h
    simp only [blocksLoop] at h
    rcases hp : pollValidators t qr b vals chain 0 0 with ⟨res, chain1⟩
    rw [hp] at h
    cases res with
    | error e => simp at h
    | ok u =>
      simp only [] at h
      have := ih chain1 (r ++ [b]) h
      simpa [List.append_assoc] using this

/-- Filtering a list by membership in a superset keeps it intact. -/
lemma filter_contains_self (l r : List Block) (h : ∀ x ∈ l, x ∈ r) :
    l.filter (fun b => r.contains b) = l := by
  refine List.filter_eq_self.mpr ?_
  intro a ha
  simpa using h a ha

/-- Raising the threshold can only turn the inner voting loop's outcome into
the same outcome or a rejection: whenever the stricter threshold still
accepts at a decision point, the laxer one accepts with the identical
successor state. -/
lemma pollValidators_threshold_mono (t t' qr : ℚ) (ht : t ≤ t') (b : Block) :
    ∀ (vals : List (String × Validator)) (chain : List Block) (F T : ℚ),
      pollValidators t' qr b vals chain F T = pollValidators t qr b vals chain F T ∨
      (pollValidators t' qr b vals chain F T).1 =
        .error (IcnError.Consensus "Block rejected by consensus") := by
  intro vals
  induction vals with
  | nil => intro chain F T; left; rfl
  | cons kv rest ih =>
    intro chain F T
    obtain ⟨k, v⟩ := kv
    simp only [pollValidators]
    cases hvb : validate_block chain b with
    | error e => left; rfl
    | ok a =>
      by_cases hq : qr ≤ T + v.reputation
      · by_cases ht' : t' ≤ (if a then F + v.reputation else F) / (T + v.reputation)
        · have htr : t ≤ (if a then F + v.reputation else F) / (T + v.reputation) :=
            le_trans ht ht'
          simp only [hq, ht', htr, if_true, if_pos]
          exact ih (chain ++ [b]) (if a then F + v.reputation else F) (T + v.reputation)
        · right
          simp [hq, ht']
      · simp only [hq, if_neg, not_false_iff]
        exact ih chain (if a then F + v.reputation else F) (T + v.reputation)

/-- Raising the threshold can only turn the pending-block loop's outcome
into the same outcome or a rejection. -/
lemma blocksLoop_threshold_mono (t t' qr : ℚ) (ht : t ≤ t')
    (vals : List (String × Validator)) :
    ∀ (bs chain r : List Block),
      blocksLoop t' qr vals bs chain r = blocksLoop t qr vals bs chain r ∨
      (blocksLoop t' qr vals bs chain r).1 =
        .error (IcnError.Consensus "Block rejected by consensus") := by
  intro bs
  induction bs with
  | nil => intro chain r; left; rfl
  | cons b rest ih =>
    intro chain r
    simp only [blocksLoop]
    rcases pollValidators_threshold_mono t t' qr ht b vals chain 0 0 with heq | hrej
    · rw [heq]
      rcases hp : pollValidators t qr b vals chain 0 0 with ⟨res, chain1⟩
      cases res with
      | error e => left; rfl
      | ok u => exact ih chain1 (r ++ [b])
    · rcases hp : pollValidators t' qr b vals chain 0 0 with ⟨res, chain1⟩
      rw [hp] at hrej
      cases res with
      | error e =>
        simp only [] at hrej
        right
        simp [hrej]
      | ok u => simp at hrej

/-- When the quorum mass is non-positive and the first polled validator has
reputation `0`, the inner loop decides at that first validator: a validation
error propagates, and otherwise the `0 / 0` accept ratio fails any positive
threshold, so the block is rejected — the chain untouched either way. -/
lemma pollValidators_zero_first (t qr : ℚ) (b : Block) (k : String) (v : Validator)
    (rest : List (String × Validator)) (chain : List Block)
    (h0 : 0 < t) (hv : v.reputation = 0) (hqr : qr ≤ 0) :
    pollValidators t qr b ((k, v) :: rest) chain 0 0 =
      (match validate_block chain b with
       | .error e => (.error e, chain)
       | .ok _ => (.error (IcnError.Consensus "Block rejected by consensus"), chain)) := by
  simp only [pollValidators]
  cases hvb : validate_block chain b with
  | error e => rfl
  | ok a =>
    have hT : qr ≤ (0 : ℚ) + v.reputation := by simp [hv, hqr]
    have hF : (if a then (0 : ℚ) + v.reputation else 0) / ((0 : ℚ) + v.reputation) = 0 := by
      simp [hv]
    have hnt : ¬ t ≤ (if a then (0 : ℚ) + v.reputation else 0) / ((0 : ℚ) + v.reputation) := by
      rw [hF]; exact not_le_of_gt h0
    simp only [hT, hnt, if_pos, if_neg, not_false_iff]

end PoCConsensus

/-! ### Claim theorems -/

/-- Claim C9: consensus threshold monotonicity — with the validator set, its
polling order, the committed chain and the pending queue all fixed, if the
round triggered by submitting a block reports rejection at threshold `t`,
it also reports rejection at any threshold `t' ∈ [t, 1]`. -/
theorem consensus_threshold_monotone (e : PoCConsensus) (b : Block) (t t' : ℚ)
    (_h0 : 0 < t) (htt : t ≤ t') (_h1 : t' ≤ 1)
    (hrej : (PoCConsensus.process_new_block { e with threshold := t } b).1 =
      Except.error (IcnError.Consensus "Block rejected by consensus")) :
    (PoCConsensus.process_new_block { e with threshold := t' } b).1 =
      Except.error (IcnError.Consensus "Block rejected by consensus") := by
  unfold PoCConsensus.process_new_block PoCConsensus.try_reach_consensus at hrej ⊢
  simp only [] at hrej ⊢
  rcases PoCConsensus.blocksLoop_threshold_mono t t'
      ((List.map (fun p => p.2.reputation) e.validators).sum * e.quorum) htt e.validators
      (e.pending_blocks ++ [b]) e.blockchain [] with heq | hrej'
  · rw [heq]
    rcases hp : PoCConsensus.blocksLoop t
        ((List.map (fun p => p.2.reputation) e.validators).sum * e.quorum) e.validators
        (e.pending_blocks ++ [b]) e.blockchain [] with ⟨res, c', r'⟩
    rw [hp] at hrej
    cases res with
    | error err =>
      simp only [] at hrej
      simp [hrej]
    | ok u => simp at hrej
  · rcases hp : PoCConsensus.blocksLoop t'
        ((List.map (fun p => p.2.reputation) e.validators).sum * e.quorum) e.validators
        (e.pending_blocks ++ [b]) e.blockchain [] with ⟨res, c', r'⟩
    rw [hp] at hrej'
    cases res with
    | error err =>
      simp only [] at hrej'
      simp [hrej']
    | ok u => simp at hrej'

/-- Claim C10: `process_new_block` never shrinks the pending set — whatever
the outcome, the post-state's pending list is exactly the prior pending list
with the new block appended, so every previously submitted block (committed
ones included) is polled again in every later round. -/
theorem pending_blocks_never_shrink (e : PoCConsensus) (b : Block) :
    (PoCConsensus.process_new_block e b).2.pending_blocks = e.pending_blocks ++ [b] ∧
    (∀ p ∈ e.pending_blocks, p ∈ (PoCConsensus.process_new_block e b).2.pending_blocks) ∧
    b ∈ (PoCConsensus.process_new_block e b).2.pending_blocks := by
  have hmain : (PoCConsensus.process_new_block e b).2.pending_blocks =
      e.pending_blocks ++ [b] := by
    unfold PoCConsensus.process_new_block PoCConsensus.try_reach_consensus
    simp only []
    rcases hp : PoCConsensus.blocksLoop e.threshold
        ((List.map (fun p => p.2.reputation) e.validators).sum * e.quorum) e.validators
        (e.pending_blocks ++ [b]) e.blockchain [] with ⟨res, c', r'⟩
    cases res with
    | error err => rfl
    | ok u =>
      cases u
      have hr : r' = [] ++ (e.pending_blocks ++ [b]) :=
        PoCConsensus.blocksLoop_ok_retain _ _ _ _ _ _ hp
      simp only [List.nil_append] at hr
      subst hr
      exact PoCConsensus.filter_contains_self _ _ (fun x hx => hx)
  refine ⟨hmain, ?_, ?_⟩
  · intro p hp
    rw [hmain]
    exact List.mem_append_left _ hp
  · rw [hmain]
    exact List.mem_append_right _ (List.mem_singleton_self b)

/-- Claim C1: the spec's scenario 5 (threshold 0.66, quorum 0.51,
reputations 0.8 and 0.7, well-formed block linked to genesis, every
validator accepting at submission time) diverges from the claim when the
0.8-validator is polled first: the block is appended exactly once (chain
length 2), but the loop keeps polling, re-validates against the new tip,
the accept ratio drops to `0.8 / 1.5 < 0.66`, and `process_new_block`
reports `Consensus "Block rejected by consensus"` instead of succeeding. -/
theorem scenario5_submit_rejected_after_append :
    (PoCConsensus.process_new_block scenario5Engine linkedBlock).1 =
      Except.error (IcnError.Consensus "Block rejected by consensus") ∧
    (PoCConsensus.process_new_block scenario5Engine linkedBlock).2.blockchain =
      [genesisBlock, linkedBlock] := by
  constructor <;>
    norm_num +decide [PoCConsensus.process_new_block, PoCConsensus.try_reach_consensus,
      PoCConsensus.blocksLoop, PoCConsensus.pollValidators, PoCConsensus.validate_block,
      PoCConsensus.validateTxList, scenario5Engine, linkedBlock, genesisBlock,
      Block.calculate_hash]

/-- Claim C2: a candidate every validator rejects is reported rejected and
the prior chain is untouched, but the candidate is NOT dropped from the
pending set — the early error return skips the retain step, so the rejected
block stays pending. -/
theorem rejected_candidate_stays_pending :
    (PoCConsensus.process_new_block rejectingEngine unlinkedBlock).1 =
      Except.error (IcnError.Consensus "Block rejected by consensus") ∧
    (PoCConsensus.process_new_block rejectingEngine unlinkedBlock).2.blockchain =
      [genesisBlock] ∧
    (PoCConsensus.process_new_block rejectingEngine unlinkedBlock).2.pending_blocks =
      [unlinkedBlock] := by
  refine ⟨?_, ?_, ?_⟩ <;>
    norm_num +decide [PoCConsensus.process_new_block, PoCConsensus.try_reach_consensus,
      PoCConsensus.blocksLoop, PoCConsensus.pollValidators, PoCConsensus.validate_block,
      PoCConsensus.validateTxList, rejectingEngine, unlinkedBlock, genesisBlock,
      Block.calculate_hash]

/-- Claim C3, counterexample: with a nonempty validator set whose only
member has reputation 0, submitting an always-valid candidate (a genesis
block) is not a no-op — the quorum check fires immediately at `0 ≥ 0`, the
`0 / 0` accept ratio fails the threshold, and `process_new_block` returns
the rejection error, contradicting "returns no error". -/
theorem consensus_zero_reputation_rejects :
    (PoCConsensus.process_new_block zeroRepEngine genesisCandidate).1 =
      Except.error (IcnError.Consensus "Block rejected by consensus") := by
  norm_num +decide [PoCConsensus.process_new_block, PoCConsensus.try_reach_consensus,
    PoCConsensus.blocksLoop, PoCConsensus.pollValidators, PoCConsensus.validate_block,
    zeroRepEngine, genesisCandidate]

/-- Claim C3, amended: with an empty validator set, `process_new_block` is
a no-op apart from enqueueing (no append, no error, block pending); with a
nonempty all-zero-reputation validator set it likewise appends nothing and
keeps the block pending, but returns an error — the consensus rejection as
soon as the first pending block's validation predicate evaluates (or that
predicate's own error). -/
theorem consensus_without_reputation_mass (e : PoCConsensus) (b : Block)
    (ht : 0 < e.threshold) :
    (e.validators = [] →
      (PoCConsensus.process_new_block e b).1 = Except.ok () ∧
      (PoCConsensus.process_new_block e b).2.blockchain = e.blockchain ∧
      (PoCConsensus.process_new_block e b).2.pending_blocks = e.pending_blocks ++ [b]) ∧
    (e.validators ≠ [] → (∀ p ∈ e.validators, p.2.reputation = 0) →
      (∃ err, (PoCConsensus.process_new_block e b).1 = Except.error err) ∧
      (PoCConsensus.process_new_block e b).2.blockchain = e.blockchain ∧
      (PoCConsensus.process_new_block e b).2.pending_blocks = e.pending_blocks ++ [b] ∧
      (∀ p₀ ps, e.pending_blocks ++ [b] = p₀ :: ps →
        ∀ a, PoCConsensus.validate_block e.blockchain p₀ = Except.ok a →
        (PoCConsensus.process_new_block e b).1 =
          Except.error (IcnError.Consensus "Block rejected by consensus"))) := by
  constructor
  · intro hval
    unfold PoCConsensus.process_new_block PoCConsensus.try_reach_consensus
    simp only [hval]
    rw [PoCConsensus.blocksLoop_no_validators]
    simp only [List.nil_append, List.map_nil, List.sum_nil]
    refine ⟨trivial, trivial, ?_⟩
    exact PoCConsensus.filter_contains_self _ _ (fun x hx => hx)
  · intro hne hzero
    obtain ⟨⟨k, v⟩, rest, hval⟩ : ∃ kv rest, e.validators = kv :: rest := by
      cases hv : e.validators with
      | nil => exact absurd hv hne
      | cons kv rest => exact ⟨kv, rest, rfl⟩
    have hsum : ((List.map (fun p => p.2.reputation) e.validators).sum : ℚ) = 0 := by
      refine List.sum_eq_zero ?_
      intro x hx
      simp only [List.mem_map] at hx
      obtain ⟨p, hp, hpx⟩ := hx
      rw [← hpx]
      exact hzero p hp
    have hqr : ((List.map (fun p => p.2.reputation) e.validators).sum : ℚ) * e.quorum ≤ 0 := by
      rw [hsum, zero_mul]
    have hvrep : v.reputation = 0 := hzero (k, v) (by rw [hval]; exact List.mem_cons_self _ _)
    rcases hsplit : e.pending_blocks ++ [b] with _ | ⟨p₀, ps⟩
    · exact absurd hsplit (by simp)
    · unfold PoCConsensus.process_new_block PoCConsensus.try_reach_consensus
      simp only [hsplit, PoCConsensus.blocksLoop]
      rw [hval, PoCConsensus.pollValidators_zero_first _ _ _ _ _ _ _ ht hvrep (by rw [← hval]; exact hqr)]
      cases hvb : PoCConsensus.validate_block e.blockchain p₀ with
      | error err =>
        simp only []
        refine ⟨⟨err, rfl⟩, trivial, trivial, ?_⟩
        intro q qs hq a ha
        cases hq
        simp [hvb] at ha
      | ok a =>
        simp only []
        refine ⟨⟨IcnError.Consensus "Block rejected by consensus", rfl⟩, trivial, trivial, ?_⟩
        intro q qs hq a' ha
        trivial

/-- Witness for C3's amended claim: with no validators the round succeeds as
a no-op; with one zero-reputation validator the round rejects the genesis
candidate. -/
theorem consensus_without_reputation_mass_witness :
    (PoCConsensus.process_new_block noValidatorEngine genesisCandidate).1 = Except.ok () ∧
    (PoCConsensus.process_new_block zeroRepEngine genesisCandidate).1 =
      Except.error (IcnError.Consensus "Block rejected by consensus") := by
  constructor
  · exact ((consensus_without_reputation_mass noValidatorEngine genesisCandidate
      (by norm_num [noValidatorEngine])).1 rfl).1
  · exact ((consensus_without_reputation_mass zeroRepEngine genesisCandidate
      (by norm_num [zeroRepEngine])).2 (by simp [zeroRepEngine]) (by decide)).2.2.2
      genesisCandidate [] rfl true rfl

/-- Witness for C9: a round that rejects at threshold 0.66 also rejects at
threshold 0.8. -/
theorem consensus_threshold_monotone_witness :
    (PoCConsensus.process_new_block { rejectingEngine with threshold := 8/10 }
      unlinkedBlock).1 =
      Except.error (IcnError.Consensus "Block rejected by consensus") :=
  consensus_threshold_monotone rejectingEngine unlinkedBlock (66/100) (8/10)
    (by norm_num) (by norm_num) (by norm_num)
    (by norm_num +decide [PoCConsensus.process_new_block, PoCConsensus.try_reach_consensus,
      PoCConsensus.blocksLoop, PoCConsensus.pollValidators, PoCConsensus.validate_block,
      PoCConsensus.validateTxList, rejectingEngine, unlinkedBlock, genesisBlock,
      Block.calculate_hash])

/-- Claim C6: on an Active proposal whose voting window has closed,
`finalize_proposal` sets the status by the spec's rule — Rejected when the
total recorded weight `W` is below the absolute `required_quorum`, Passed
when `W_yes / W` strictly exceeds one half, Rejected otherwise (ties
included) — and stores that status. -/
theorem finalize_proposal_decision_rule (gs : GovernanceSystem) (id : String)
    (now : ℤ) (p : Proposal) (vs : List Vote)
    (hp : mapGet gs.proposals id = some p) (hact : p.status = ProposalStatus.Active)
    (hwin : ¬ now < p.voting_ends_at) (hv : mapGet gs.votes id = some vs) :
    (GovernanceSystem.finalize_proposal gs id now).1 =
      Except.ok
        (if (vs.map Vote.weight).sum < p.required_quorum then ProposalStatus.Rejected
         else if (1 : ℚ) / 2 <
             ((vs.filter (fun v => v.in_favor)).map Vote.weight).sum /
               (vs.map Vote.weight).sum then ProposalStatus.Passed
         else ProposalStatus.Rejected) ∧
    (GovernanceSystem.finalize_proposal gs id now).2.proposals =
      mapSet gs.proposals id
        { p with status :=
            (if (vs.map Vote.weight).sum < p.required_quorum then ProposalStatus.Rejected
             else if (1 : ℚ) / 2 <
                 ((vs.filter (fun v => v.in_favor)).map Vote.weight).sum /
                   (vs.map Vote.weight).sum then ProposalStatus.Passed
             else ProposalStatus.Rejected) } := by
  unfold GovernanceSystem.finalize_proposal
  rw [hp]
  simp only [hact, hwin, ne_eq, not_true_eq_false, if_neg, if_false, ite_false,
    not_false_iff, reduceIte]
  rw [hv]
  exact ⟨rfl, rfl⟩

/-- Witness for C6: the sample store (quorum 3, votes yes 1 + yes 1 + no 1,
window closed at time 200) finalizes to Passed. -/
theorem finalize_proposal_decision_rule_witness :
    (GovernanceSystem.finalize_proposal sampleGov "prop1" 200).1 =
      Except.ok ProposalStatus.Passed := by
  have h := (finalize_proposal_decision_rule sampleGov "prop1" 200 sampleProposal
    sampleVotes rfl rfl (by norm_num [sampleProposal]) rfl).1
  rw [h]
  norm_num [sampleVotes, sampleProposal]

/-- Claim C7: `vote_on_proposal` fails exactly when the proposal is absent,
not Active, its window has closed, or the voter already voted; failures
leave the store untouched; success appends exactly the one new vote; and
per-proposal voter uniqueness is preserved, so each voter records at most
one vote per proposal.  Well-formedness (every stored proposal id owns a
vote list) is the invariant `create_proposal` establishes. -/
theorem vote_on_proposal_contract (gs : GovernanceSystem) (id voter : String)
    (fav : Bool) (w : ℚ) (now : ℤ)
    (hwf : GovernanceSystem.wellFormed gs = true) :
    ((GovernanceSystem.vote_on_proposal gs id voter fav w now).1 ≠ Except.ok () ↔
      (mapGet gs.proposals id = none ∨
       (∃ p, mapGet gs.proposals id = some p ∧
         (p.status ≠ ProposalStatus.Active ∨ p.voting_ends_at < now)) ∨
       (∃ vs, mapGet gs.votes id = some vs ∧ ∃ v ∈ vs, v.voter = voter))) ∧
    ((GovernanceSystem.vote_on_proposal gs id voter fav w now).1 ≠ Except.ok () →
      (GovernanceSystem.vote_on_proposal gs id voter fav w now).2 = gs) ∧
    (∀ p vs, mapGet gs.proposals id = some p → p.status = ProposalStatus.Active →
      ¬ p.voting_ends_at < now → mapGet gs.votes id = some vs →
      (∀ v ∈ vs, v.voter ≠ voter) →
      (GovernanceSystem.vote_on_proposal gs id voter fav w now).1 = Except.ok () ∧
      (GovernanceSystem.vote_on_proposal gs id voter fav w now).2.proposals =
        gs.proposals ∧
      mapGet (GovernanceSystem.vote_on_proposal gs id voter fav w now).2.votes id =
        some (vs ++ [{ voter := voter, proposal_id := id, in_favor := fav,
                       weight := w, timestamp := now }]) ∧
      (∀ k, k ≠ id →
        mapGet (GovernanceSystem.vote_on_proposal gs id voter fav w now).2.votes k =
          mapGet gs.votes k)) ∧
    ((∀ k vs, mapGet gs.votes k = some vs → (vs.map Vote.voter).Nodup) →
      (∀ k vs,
        mapGet (GovernanceSystem.vote_on_proposal gs id voter fav w now).2.votes k =
          some vs → (vs.map Vote.voter).Nodup)) := by
  rcases hp : mapGet gs.proposals id with _ | p
  · refine ⟨?_, ?_, ?_, ?_⟩
    · simp [GovernanceSystem.vote_on_proposal, hp]
    · intro _
      simp [GovernanceSystem.vote_on_proposal, hp]
    · intro p vs hp' _ _ _ _
      exact Option.noConfusion hp'
    · intro hnod k vs hk
      simp only [GovernanceSystem.vote_on_proposal, hp] at hk
      exact hnod k vs hk
  · by_cases hst : p.status = ProposalStatus.Active
    · by_cases hwin : p.voting_ends_at < now
      · -- window closed: error
        have hres : GovernanceSystem.vote_on_proposal gs id voter fav w now =
            (Except.error (IcnError.Governance "Voting period has ended"), gs) := by
          unfold GovernanceSystem.vote_on_proposal
          rw [hp]
          simp [hst, hwin]
        refine ⟨?_, ?_, ?_, ?_⟩
        · rw [hres]
          simp only [ne_eq, reduceCtorEq, not_false_iff, true_iff]
          exact Or.inr (Or.inl ⟨p, rfl, Or.inr hwin⟩)
        · intro _
          rw [hres]
        · intro p' vs hp' _ hwin' _ _
          cases hp'
          exact absurd hwin hwin'
        · intro hnod k vs hk
          rw [hres] at hk
          exact hnod k vs hk
      · -- window open, Active: look at the vote list
        obtain ⟨vs, hv⟩ : ∃ vs, mapGet gs.votes id = some vs := by
          have hmem := mapGet_mem gs.proposals id p hp
          have := List.all_eq_true.mp hwf (id, p) hmem
          simp only [Option.isSome_iff_exists] at this
          obtain ⟨vs, hvs⟩ := this
          exact ⟨vs, hvs⟩
        by_cases hdup : vs.any (fun v => v.voter == voter)
        · -- duplicate voter: error
          have hres : GovernanceSystem.vote_on_proposal gs id voter fav w now =
              (Except.error (IcnError.Governance "Voter has already voted on this proposal"),
               gs) := by
            unfold GovernanceSystem.vote_on_proposal
            rw [hp]
            simp [hst, hwin, hv, hdup]
          obtain ⟨v, hvmem, hvv⟩ : ∃ v ∈ vs, v.voter = voter := by
            obtain ⟨v, hvmem, hvv⟩ := List.any_eq_true.mp hdup
            exact ⟨v, hvmem, by simpa using hvv⟩
          refine ⟨?_, ?_, ?_, ?_⟩
          · rw [hres]
            simp only [ne_eq, reduceCtorEq, not_false_iff, true_iff]
            exact Or.inr (Or.inr ⟨vs, hv, v, hvmem, hvv⟩)
          · intro _
            rw [hres]
          · intro p' vs' hp' _ _ hv' hfresh
            cases hp'
            rw [hv] at hv'
            cases hv'
            exact absurd hvv (hfresh v hvmem)
          · intro hnod k vs' hk
            rw [hres] at hk
            exact hnod k vs' hk
        · -- fresh voter: success
          have hres : GovernanceSystem.vote_on_proposal gs id voter fav w now =
              (Except.ok (), { gs with votes := (mapSet gs.votes id
                (vs ++ [{ voter := voter, proposal_id := id, in_favor := fav,
                          weight := w, timestamp := now }])) }) := by
            unfold GovernanceSystem.vote_on_proposal
            rw [hp]
            simp [hst, hwin, hv, hdup]
          have hfresh : ∀ v ∈ vs, v.voter ≠ voter := by
            intro v hvmem heq
            exact hdup (List.any_eq_true.mpr ⟨v, hvmem, by simpa using heq⟩)
          refine ⟨?_, ?_, ?_, ?_⟩
          · rw [hres]
            simp only [ne_eq, not_true_eq_false, false_iff]
            push_neg
            refine ⟨?_, ?_, ?_⟩
            · simp
            · intro p' hp'
              cases hp'
              exact ⟨hst, not_lt.mp hwin⟩
            · intro vs' hv' v hvmem
              rw [hv] at hv'
              cases hv'
              exact hfresh v hvmem
          · intro hne
            rw [hres] at hne
            simp at hne
          · intro p' vs' hp' _ _ hv' _
            cases hp'
            rw [hv] at hv'
            cases hv'
            refine ⟨by rw [hres], by rw [hres], ?_, ?_⟩
            · rw [hres]
              exact mapGet_mapSet_self gs.votes id _ vs hv
            · intro k hk
              rw [hres]
              exact mapGet_mapSet_ne gs.votes id k _ hk
          · intro hnod k vs' hk
            rw [hres] at hk
            by_cases hkid : k = id
            · subst hkid
              rw [mapGet_mapSet_self gs.votes k _ vs hv] at hk
              cases hk
              have hcore := hnod k vs hv
              simp only [List.map_append, List.map_cons, List.map_nil]
              rw [List.nodup_append]
              refine ⟨hcore, List.nodup_singleton _, ?_⟩
              intro x hx
              simp only [List.mem_singleton]
              intro hxv
              obtain ⟨v, hvmem, hveq⟩ := List.mem_map.mp hx
              exact hfresh v hvmem (by rw [hveq, hxv])
            · rw [mapGet_mapSet_ne gs.votes id k _ hkid] at hk
              exact hnod k vs' hk
    · -- not Active: error
      have hres : GovernanceSystem.vote_on_proposal gs id voter fav w now =
          (Except.error (IcnError.Governance "Proposal is not active"), gs) := by
        unfold GovernanceSystem.vote_on_proposal
        rw [hp]
        simp [hst]
      refine ⟨?_, ?_, ?_, ?_⟩
      · rw [hres]
        simp only [ne_eq, reduceCtorEq, not_false_iff, true_iff]
        exact Or.inr (Or.inl ⟨p, rfl, Or.inl hst⟩)
      · intro _
        rw [hres]
      · intro p' vs hp' hst' _ _ _
        cases hp'
        exact absurd hst' hst
      · intro hnod k vs hk
        rw [hres] at hk
        exact hnod k vs hk

/-- Witness for C7: on the sample store (window open at time 50) a fresh
voter's vote succeeds. -/
theorem vote_on_proposal_contract_witness :
    (GovernanceSystem.vote_on_proposal sampleGov "prop1" "Dave" true 1 50).1 =
      Except.ok () :=
  ((vote_on_proposal_contract sampleGov "prop1" "Dave" true 1 50 rfl).2.2.1
    sampleProposal sampleVotes rfl rfl (by norm_num [sampleProposal]) rfl
    (by decide)).1

/-- Claim C8: every governance operation respects the proposal lifecycle
Active → Passed | Rejected, Passed → Executed: `create_proposal` and
`vote_on_proposal` never change a stored status, `finalize_proposal` only
transitions Active proposals (erroring without mutation otherwise), and
`mark_as_executed` transitions Passed → Executed and errors without
mutation on any other source status. -/
theorem governance_status_lifecycle (gs : GovernanceSystem) (q : Proposal)
    (id voter : String) (fav : Bool) (w : ℚ) (now : ℤ) :
    (∀ k r, mapGet gs.proposals k = some r →
      ∃ r', mapGet (GovernanceSystem.create_proposal gs q).2.proposals k = some r' ∧
        r'.status = r.status) ∧
    ((GovernanceSystem.vote_on_proposal gs id voter fav w now).2.proposals =
      gs.proposals) ∧
    (∀ k r, mapGet gs.proposals k = some r →
      ∃ r', mapGet (GovernanceSystem.finalize_proposal gs id now).2.proposals k = some r' ∧
        statusStepOK r.status r'.status) ∧
    (∀ r, mapGet gs.proposals id = some r → r.status ≠ ProposalStatus.Active →
      (∃ err, (GovernanceSystem.finalize_proposal gs id now).1 = Except.error err) ∧
      (GovernanceSystem.finalize_proposal gs id now).2 = gs) ∧
    (∀ k r, mapGet gs.proposals k = some r →
      ∃ r', mapGet (GovernanceSystem.mark_as_executed gs id).2.proposals k = some r' ∧
        statusStepOK r.status r'.status) ∧
    (∀ r, mapGet gs.proposals id = some r → r.status = ProposalStatus.Passed →
      (GovernanceSystem.mark_as_executed gs id).1 = Except.ok () ∧
      mapGet (GovernanceSystem.mark_as_executed gs id).2.proposals id =
        some { r with status := ProposalStatus.Executed }) ∧
    (∀ r, mapGet gs.proposals id = some r → r.status ≠ ProposalStatus.Passed →
      (GovernanceSystem.mark_as_executed gs id).1 =
        Except.error (IcnError.Governance "Proposal has not passed") ∧
      (GovernanceSystem.mark_as_executed gs id).2 = gs) := by
  refine ⟨?_, ?_, ?_, ?_, ?_, ?_, ?_⟩
  · -- create_proposal
    intro k r hk
    by_cases hdup : (mapGet gs.proposals q.id).isSome
    · refine ⟨r, ?_, rfl⟩
      simp only [GovernanceSystem.create_proposal, hdup, if_pos]
      exact hk
    · refine ⟨r, ?_, rfl⟩
      simp only [GovernanceSystem.create_proposal, hdup, if_neg, not_false_iff]
      exact mapGet_append_some gs.proposals _ k r hk
  · -- vote_on_proposal never touches the proposal store
    unfold GovernanceSystem.vote_on_proposal
    cases hp : mapGet gs.proposals id with
    | none => rfl
    | some p =>
      by_cases hst : p.status ≠ ProposalStatus.Active
      · simp [hst]
      · by_cases hwin : p.voting_ends_at < now
        · simp [hst, hwin]
        · cases hv : mapGet gs.votes id with
          | none => simp [hst, hwin]
          | some vs =>
            by_cases hdup : vs.any (fun v => v.voter == voter)
            · simp [hst, hwin, hdup]
            · simp [hst, hwin, hdup]
  · -- finalize_proposal respects the lifecycle at every key
    intro k r hk
    cases hp : mapGet gs.proposals id with
    | none =>
      refine ⟨r, ?_, Or.inl rfl⟩
      simp only [GovernanceSystem.finalize_proposal, hp]
      exact hk
    | some p =>
      by_cases hst : p.status ≠ ProposalStatus.Active
      · refine ⟨r, ?_, Or.inl rfl⟩
        simp only [GovernanceSystem.finalize_proposal, hp]
        rw [if_pos hst]
        exact hk
      · by_cases hwin : now < p.voting_ends_at
        · refine ⟨r, ?_, Or.inl rfl⟩
          simp only [GovernanceSystem.finalize_proposal, hp, hst, hwin, if_neg,
            not_false_iff, if_pos]
          exact hk
        · cases hv : mapGet gs.votes id with
          | none =>
            refine ⟨r, ?_, Or.inl rfl⟩
            simp only [GovernanceSystem.finalize_proposal, hp, hst, hwin, hv, if_neg,
              not_false_iff]
            exact hk
          | some vs =>
            have hact : p.status = ProposalStatus.Active := not_not.mp hst
            have hres : (GovernanceSystem.finalize_proposal gs id now).2.proposals =
                mapSet gs.proposals id { p with status :=
                  (if (vs.map Vote.weight).sum < p.required_quorum then ProposalStatus.Rejected
                   else if (1 : ℚ) / 2 <
                       ((vs.filter (fun v => v.in_favor)).map Vote.weight).sum /
                         (vs.map Vote.weight).sum then ProposalStatus.Passed
                   else ProposalStatus.Rejected) } := by
              unfold GovernanceSystem.finalize_proposal
              rw [hp]
              simp [hst, hwin, hv]
            by_cases hkid : k = id
            · subst hkid
              have hrp : r = p := by
                rw [hk] at hp
                cases hp
                rfl
              refine ⟨_, by rw [hres]; exact mapGet_mapSet_self gs.proposals k _ p hp, ?_⟩
              rw [hrp, hact]
              by_cases h1 : (vs.map Vote.weight).sum < p.required_quorum
              · simp only [h1, if_pos]
                exact Or.inr (Or.inr (Or.inl ⟨rfl, rfl⟩))
              · by_cases h2 : (1 : ℚ) / 2 <
                    ((vs.filter (fun v => v.in_favor)).map Vote.weight).sum /
                      (vs.map Vote.weight).sum
                · simp only [h1, h2, if_neg, not_false_iff, if_pos]
                  exact Or.inr (Or.inl ⟨rfl, rfl⟩)
                · simp only [h1, h2, if_neg, not_false_iff]
                  exact Or.inr (Or.inr (Or.inl ⟨rfl, rfl⟩))
            · refine ⟨r, ?_, Or.inl rfl⟩
              rw [hres]
              rw [mapGet_mapSet_ne gs.proposals id k _ hkid]
              exact hk
  · -- finalize_proposal errors without mutation on non-Active proposals
    intro r hr hst
    unfold GovernanceSystem.finalize_proposal
    rw [hr]
    simp [hst]
  · -- mark_as_executed respects the lifecycle at every key
    intro k r hk
    cases hp : mapGet gs.proposals id with
    | none =>
      refine ⟨r, ?_, Or.inl rfl⟩
      simp only [GovernanceSystem.mark_as_executed, hp]
      exact hk
    | some p =>
      by_cases hst : p.status ≠ ProposalStatus.Passed
      · refine ⟨r, ?_, Or.inl rfl⟩
        simp only [GovernanceSystem.mark_as_executed, hp]
        rw [if_pos hst]
        exact hk
      · have hpass : p.status = ProposalStatus.Passed := not_not.mp hst
        have hres : (GovernanceSystem.mark_as_executed gs id).2.proposals =
            mapSet gs.proposals id { p with status := ProposalStatus.Executed } := by
          unfold GovernanceSystem.mark_as_executed
          rw [hp]
          simp [hst]
        by_cases hkid : k = id
        · subst hkid
          have hrp : r = p := by
            rw [hk] at hp
            cases hp
            rfl
          refine ⟨_, by rw [hres]; exact mapGet_mapSet_self gs.proposals k _ p hp, ?_⟩
          rw [hrp, hpass]
          exact Or.inr (Or.inr (Or.inr ⟨rfl, rfl⟩))
        · refine ⟨r, ?_, Or.inl rfl⟩
          rw [hres, mapGet_mapSet_ne gs.proposals id k _ hkid]
          exact hk
  · -- mark_as_executed succeeds exactly on Passed
    intro r hr hpass
    constructor
    · unfold GovernanceSystem.mark_as_executed
      rw [hr]
      simp [hpass]
    · have hres : (GovernanceSystem.mark_as_executed gs id).2.proposals =
          mapSet gs.proposals id { r with status := ProposalStatus.Executed } := by
        unfold GovernanceSystem.mark_as_executed
        rw [hr]
        simp [hpass]
      rw [hres]
      exact mapGet_mapSet_self gs.proposals id _ r hr
  · -- mark_as_executed errors without mutation otherwise
    intro r hr hst
    unfold GovernanceSystem.mark_as_executed
    rw [hr]
    simp [hst]

/-- Witness for C8: marking the Passed proposal `"prop2"` executes it, and
finalizing it (not Active) fails without mutation. -/
theorem governance_status_lifecycle_witness :
    (GovernanceSystem.mark_as_executed passedGov "prop2").1 = Except.ok () ∧
    (GovernanceSystem.finalize_proposal passedGov "prop2" 200).2 = passedGov := by
  constructor
  · exact ((governance_status_lifecycle passedGov sampleProposal "prop2" "Dave" true 1 200).2.2.2.2.2.1
      _ rfl rfl).1
  · exact ((governance_status_lifecycle passedGov sampleProposal "prop2" "Dave" true 1 200).2.2.2.1
      _ rfl (by decide)).2

/-- Claim C4: `validate_transaction` runs its five checks in source order —
double-spend, currency/amount, balance, signature, timestamp — the first
failing check short-circuiting with the kinds `Blockchain`, `Currency`,
`Currency`, `Identity`, `Blockchain` respectively (an erroring signature
oracle still yields kind `Identity`), and with all five passing it returns
`Ok`; as a function over the immutable snapshot it has no side effects. -/
theorem validate_transaction_check_order (verify : Transaction → Except IcnError Bool)
    (now : ℤ) (t : Transaction) (bc : Blockchain) :
    (TransactionValidator.is_double_spend t bc = Except.ok true →
      TransactionValidator.validate_transaction verify now t bc =
        Except.error (IcnError.Blockchain "Double spend detected")) ∧
    (TransactionValidator.is_double_spend t bc = Except.ok false → t.amount ≤ 0 →
      TransactionValidator.validate_transaction verify now t bc =
        Except.error (IcnError.Currency "Invalid currency or amount")) ∧
    (TransactionValidator.is_double_spend t bc = Except.ok false → 0 < t.amount →
      bc.get_balance t.from_ t.currency_type < t.amount + t.get_fee →
      TransactionValidator.validate_transaction verify now t bc =
        Except.error (IcnError.Currency "Insufficient balance")) ∧
    (TransactionValidator.is_double_spend t bc = Except.ok false → 0 < t.amount →
      t.amount + t.get_fee ≤ bc.get_balance t.from_ t.currency_type →
      verify t = Except.ok false →
      TransactionValidator.validate_transaction verify now t bc =
        Except.error (IcnError.Identity "Invalid signature")) ∧
    (∀ e, TransactionValidator.is_double_spend t bc = Except.ok false → 0 < t.amount →
      t.amount + t.get_fee ≤ bc.get_balance t.from_ t.currency_type →
      verify t = Except.error e →
      ∃ s, TransactionValidator.validate_transaction verify now t bc =
        Except.error (IcnError.Identity s)) ∧
    (TransactionValidator.is_double_spend t bc = Except.ok false → 0 < t.amount →
      t.amount + t.get_fee ≤ bc.get_balance t.from_ t.currency_type →
      verify t = Except.ok true → TransactionValidator.validate_timestamp now t = false →
      TransactionValidator.validate_transaction verify now t bc =
        Except.error (IcnError.Blockchain "Transaction timestamp is not valid")) ∧
    (TransactionValidator.is_double_spend t bc = Except.ok false → 0 < t.amount →
      t.amount + t.get_fee ≤ bc.get_balance t.from_ t.currency_type →
      verify t = Except.ok true → TransactionValidator.validate_timestamp now t = true →
      TransactionValidator.validate_transaction verify now t bc = Except.ok ()) := by
  refine ⟨?_, ?_, ?_, ?_, ?_, ?_, ?_⟩
  · intro hds
    unfold TransactionValidator.validate_transaction
    rw [hds]
  · intro hds hneg
    unfold TransactionValidator.validate_transaction
    rw [hds]
    simp [TransactionValidator.validate_currency_and_amount, not_lt.mpr hneg]
  · intro hds hpos hbal
    unfold TransactionValidator.validate_transaction
    rw [hds]
    simp [TransactionValidator.validate_currency_and_amount, hpos,
      TransactionValidator.check_sufficient_balance, not_le.mpr hbal]
  · intro hds hpos hbal hsig
    unfold TransactionValidator.validate_transaction
    rw [hds]
    simp [TransactionValidator.validate_currency_and_amount, hpos,
      TransactionValidator.check_sufficient_balance, hbal,
      TransactionValidator.validate_signature, hsig]
  · intro e hds hpos hbal hsig
    refine ⟨"Signature verification failed: " ++ e.msg, ?_⟩
    unfold TransactionValidator.validate_transaction
    rw [hds]
    simp [TransactionValidator.validate_currency_and_amount, hpos,
      TransactionValidator.check_sufficient_balance, hbal,
      TransactionValidator.validate_signature, hsig]
  · intro hds hpos hbal hsig hts
    unfold TransactionValidator.validate_transaction
    rw [hds]
    simp [TransactionValidator.validate_currency_and_amount, hpos,
      TransactionValidator.check_sufficient_balance, hbal,
      TransactionValidator.validate_signature, hsig, hts]
  · intro hds hpos hbal hsig hts
    unfold TransactionValidator.validate_transaction
    rw [hds]
    simp [TransactionValidator.validate_currency_and_amount, hpos,
      TransactionValidator.check_sufficient_balance, hbal,
      TransactionValidator.validate_signature, hsig, hts]

/-- Witness for C4: the funded sample chain admits `spendTx` at time 1000,
and rejects an over-large spend with the balance error. -/
theorem validate_transaction_check_order_witness :
    TransactionValidator.validate_transaction acceptAllVerify 1000 spendTx fundedChain =
      Except.ok () ∧
    TransactionValidator.validate_transaction acceptAllVerify 1000
      { spendTx with amount := 150 } fundedChain =
      Except.error (IcnError.Currency "Insufficient balance") := by
  constructor
  · exact (validate_transaction_check_order acceptAllVerify 1000 spendTx fundedChain).2.2.2.2.2.2
      (by decide)
      (by norm_num [spendTx])
      (by norm_num +decide [spendTx, fundedChain, fundingTx, Blockchain.get_balance,
        Transaction.get_fee, txDelta])
      rfl (by decide)
  · exact (validate_transaction_check_order acceptAllVerify 1000
      { spendTx with amount := 150 } fundedChain).2.2.1
      (by decide)
      (by norm_num [spendTx])
      (by norm_num +decide [spendTx, fundedChain, fundingTx, Blockchain.get_balance,
        Transaction.get_fee, txDelta])

/-- Claim C5: once the first four checks pass, `validate_transaction`
succeeds exactly when `now - 3600 ≤ timestamp ≤ now`; in particular any
future-dated transaction is rejected with
`Blockchain "Transaction timestamp is not valid"`. -/
theorem validate_transaction_timestamp_window
    (verify : Transaction → Except IcnError Bool) (now : ℤ) (t : Transaction)
    (bc : Blockchain)
    (hds : TransactionValidator.is_double_spend t bc = Except.ok false)
    (hpos : 0 < t.amount)
    (hbal : t.amount + t.get_fee ≤ bc.get_balance t.from_ t.currency_type)
    (hsig : verify t = Except.ok true) :
    (TransactionValidator.validate_transaction verify now t bc = Except.ok () ↔
      (now - 3600 ≤ t.timestamp ∧ t.timestamp ≤ now)) ∧
    (now < t.timestamp →
      TransactionValidator.validate_transaction verify now t bc =
        Except.error (IcnError.Blockchain "Transaction timestamp is not valid")) := by
  have hred : TransactionValidator.validate_transaction verify now t bc =
      (if TransactionValidator.validate_timestamp now t = false then
        Except.error (IcnError.Blockchain "Transaction timestamp is not valid")
       else Except.ok ()) := by
    unfold TransactionValidator.validate_transaction
    rw [hds]
    simp [TransactionValidator.validate_currency_and_amount, hpos,
      TransactionValidator.check_sufficient_balance, hbal,
      TransactionValidator.validate_signature, hsig]
  constructor
  · rw [hred]
    by_cases hts : TransactionValidator.validate_timestamp now t = true
    · simp only [hts, Bool.true_eq_false, if_neg, not_false_iff, reduceIte, true_iff]
      have := of_decide_eq_true hts
      exact ⟨by linarith [this.2], this.1⟩
    · have hts' : TransactionValidator.validate_timestamp now t = false :=
        Bool.not_eq_true _ ▸ eq_false_of_ne_true hts
      simp only [hts', if_pos, reduceIte, reduceCtorEq, false_iff, not_and]
      intro hlow
      have := of_decide_eq_false hts'
      intro hhigh
      exact this ⟨hhigh, by linarith⟩
  · intro hfut
    rw [hred]
    have hts' : TransactionValidator.validate_timestamp now t = false := by
      refine decide_eq_false ?_
      intro hc
      exact absurd hc.1 (not_le.mpr hfut)
    simp [hts']

/-- Witness for C5: at time 1000 the sample transaction (timestamp 1000) is
inside the window, and dated one hour ahead it is rejected. -/
theorem validate_transaction_timestamp_window_witness :
    TransactionValidator.validate_transaction acceptAllVerify 1000 spendTx fundedChain =
      Except.ok () ∧
    TransactionValidator.validate_transaction acceptAllVerify 1000
      { spendTx with timestamp := 4600 } fundedChain =
      Except.error (IcnError.Blockchain "Transaction timestamp is not valid") := by
  constructor
  · exact (validate_transaction_timestamp_window acceptAllVerify 1000 spendTx fundedChain
      (by decide) (by norm_num [spendTx])
      (by norm_num +decide [spendTx, fundedChain, fundingTx, Blockchain.get_balance,
        Transaction.get_fee, txDelta])
      rfl).1.mpr (by norm_num [spendTx])
  · exact (validate_transaction_timestamp_window acceptAllVerify 1000
      { spendTx with timestamp := 4600 } fundedChain
      (by decide) (by norm_num [spendTx])
      (by norm_num +decide [spendTx, fundedChain, fundingTx, Blockchain.get_balance,
        Transaction.get_fee, txDelta])
      rfl).2 (by norm_num [spendTx])
